import Mathlib

set_option maxHeartbeats 1000000

/-!
Verification development for the `arris-scrape` utility (`arris-scrape.go`).

The HTML tree of `golang.org/x/net/html` is embedded with its
`FirstChild`/`NextSibling` pointer structure: a node value carries its own
subtree and its chain of right siblings, and `nil` is the null pointer.
`Parent` pointers are represented by the ancestor stack threaded through
`findTextNode` (a zipper), so `p.Parent.Parent.Parent` becomes a lookup in
that stack.  Go runtime panics (nil-pointer dereference, index out of
range) are modelled explicitly by the `crash` outcome.  Machine numerics:
`strconv.ParseInt`/`Atoi` are modelled on `Int` with the explicit
`int64` range check; `float64` values are modelled as exact rationals
(`ℚ`) with decimal parsing — rounding, `Inf`/`NaN`, hexadecimal floats and
out-of-range exponents of `strconv.ParseFloat` are outside the fragment the
device pages use and are not modelled.
-/

/-- Node kinds of `golang.org/x/net/html` (`html.NodeType`). -/
inductive NodeType where
  | errorNode
  | textNode
  | documentNode
  | elementNode
  | commentNode
  | doctypeNode
  | rawNode
deriving DecidableEq

/-- `html.Attribute`: one markup attribute. -/
structure MAttribute where
  Namespace : String
  Key : String
  Val : String
deriving DecidableEq

/-- `html.Node`, with its `FirstChild`/`NextSibling` pointers; `nil` is the
null pointer.  A node value therefore contains its subtree and its right
siblings, exactly like the Go pointers reachable from it. -/
inductive HNode where
  | nil : HNode
  | node (ntype : NodeType) (ndata : String) (attr : List MAttribute)
      (firstChild : HNode) (nextSibling : HNode) : HNode
deriving DecidableEq

/-- `FirstChild` as a value accessor (`nil` has no children). -/
def HNode.firstChild : HNode → HNode
  | .nil => .nil
  | .node _ _ _ fc _ => fc

/-- `findTextNode` from arris-scrape.go: check the node, then recurse into
`FirstChild`, then into `NextSibling`; the first text node whose `Data`
equals `text` wins.  The result is that node together with its `Parent`
chain (nearest parent first); `anc` is the `Parent` chain of `n` itself and
the top-level call passes `[]`. -/
def findTextNode (n : HNode) (text : String) (anc : List HNode) :
    Option (HNode × List HNode) :=
  match n with
  | .nil => none
  | .node ty d a fc ns =>
    if ty = NodeType.textNode ∧ d = text then some (.node ty d a fc ns, anc)
    else
      match findTextNode fc text (.node ty d a fc ns :: anc) with
      | some r => some r
      | none => findTextNode ns text anc

/-- All nodes of the tree hanging off `n` (the node, its subtree, and its
right siblings) in the visiting order of `findTextNode`: node first, then
the `FirstChild` part, then the `NextSibling` part. -/
def preorderNodes : HNode → List HNode
  | .nil => []
  | .node ty d a fc ns =>
    HNode.node ty d a fc ns :: (preorderNodes fc ++ preorderNodes ns)

/-- Whether a node is a text node whose data is exactly `s`. -/
def isTextEq (n : HNode) (s : String) : Bool :=
  match n with
  | .nil => false
  | .node ty d _ _ _ => decide (ty = NodeType.textNode) && decide (d = s)

/-- A node and its following siblings, in document order. -/
def siblingList : HNode → List HNode
  | .nil => []
  | .node ty d a fc ns => HNode.node ty d a fc ns :: siblingList ns

/-- The row test of `scrapeTable`: exactly one attribute, `align="left"`. -/
def isDataRow : HNode → Bool
  | .nil => false
  | .node _ _ [a] _ _ => a.Key == "align" && a.Val == "left"
  | .node _ _ _ _ _ => false

/-- Inner loop of `scrapeTable` over a row's children: every child whose
`Data` equals `"td"` (the node type is not inspected) contributes
`FirstChild.Data`; `none` models the nil-pointer dereference panic when such
a child has no first child. -/
def cellVals : HNode → Option (List String)
  | .nil => some []
  | .node _ d _ fc ns =>
    if d = "td" then
      match fc with
      | .nil => none
      | .node _ cd _ _ _ => (cellVals ns).map (fun vs => cd :: vs)
    else cellVals ns

/-- `scrapeTable` from arris-scrape.go: walk `rowPtr` and its
`NextSibling` chain; qualifying rows contribute their cell texts.
`none` models a panic inside the cell extraction. -/
def scrapeTable : HNode → Option (List (List String))
  | .nil => some []
  | .node ty d a fc ns =>
    if isDataRow (.node ty d a fc ns) then
      match cellVals fc, scrapeTable ns with
      | some vs, some rest => some (vs :: rest)
      | _, _ => none
    else scrapeTable ns

/-- Totality condition for the cell extraction of one row: every child in
the cell chain whose `Data` is `"td"` has a first child. -/
def cellsOK : HNode → Bool
  | .nil => true
  | .node _ d _ fc ns => (!(d == "td") || !(fc == HNode.nil)) && cellsOK ns

/-- `tableTitle.Parent.Parent.Parent` evaluated on the ancestor stack
returned by `findTextNode`.  With fewer than two ancestors the Go code
dereferences a nil `Parent` pointer (`none` = panic); with exactly two the
third `Parent` is the nil pointer itself, which is a legal value to pass to
`scrapeTable`. -/
def thirdAncestor : List HNode → Option HNode
  | _ :: _ :: p3 :: _ => some p3
  | [_, _] => some HNode.nil
  | _ => none

/-- Numeric value of a digit string. -/
def natOfDigits (l : List Char) : Nat :=
  l.foldl (fun a c => 10 * a + (c.toNat - 48)) 0

/-- A non-empty all-digit string, or failure. -/
def digitsVal (l : List Char) : Option Nat :=
  if l ≠ [] ∧ l.all Char.isDigit then some (natOfDigits l) else none

/-- An optionally signed non-empty digit string. -/
def parseSignedDigits (l : List Char) : Option Int :=
  match l with
  | '-' :: r => (digitsVal r).map (fun m => -(m : Int))
  | '+' :: r => (digitsVal r).map (fun m => (m : Int))
  | r => (digitsVal r).map (fun m => (m : Int))

/-- `strconv.ParseInt(s, 10, 64)` (also `strconv.Atoi` on a 64-bit
platform): optional sign, decimal digits, `int64` range check. -/
def parseIntGo (s : String) : Option Int :=
  match parseSignedDigits s.toList with
  | none => none
  | some v => if -(2 ^ 63 : Int) ≤ v ∧ v ≤ 2 ^ 63 - 1 then some v else none

/-- `strconv.ParseFloat(s, 64)` on the decimal fragment, with the value
taken exactly (as a rational): optional sign, digits with an optional
decimal point (at least one digit overall), optional decimal exponent. -/
def parseFloatGo (s : String) : Option ℚ :=
  match s.toList with
  | [] => none
  | l =>
    let signed := match l with
      | '-' :: r => (true, r)
      | '+' :: r => (false, r)
      | r => (false, r)
    let mant := (signed.2).takeWhile (fun c => c ≠ 'e' ∧ c ≠ 'E')
    let expPart := (signed.2).dropWhile (fun c => c ≠ 'e' ∧ c ≠ 'E')
    let eo : Option Int := match expPart with
      | [] => some 0
      | _ :: ex => parseSignedDigits ex
    match eo with
    | none => none
    | some e =>
      let ip := mant.takeWhile (fun c => c ≠ '.')
      let rest := mant.dropWhile (fun c => c ≠ '.')
      let fp := match rest with
        | [] => []
        | _ :: r => r
      if ip.all Char.isDigit ∧ fp.all Char.isDigit ∧ (ip ≠ [] ∨ fp ≠ []) then
        let base : ℚ := (natOfDigits (ip ++ fp) : ℚ) / (10 ^ fp.length : ℚ)
        let scaled : ℚ :=
          if 0 ≤ e then base * (10 ^ e.toNat : ℚ) else base / (10 ^ (-e).toNat : ℚ)
        some (if signed.1 then -scaled else scaled)
      else none

/-- `strings.Split(s, " ")[0]`: the prefix of `s` before the first space. -/
def firstField (s : String) : String :=
  String.mk (s.toList.takeWhile (fun c => c ≠ ' '))

/-- Error values the parse/format pipeline can return: the
"unable to find ... table" error, a `strconv` conversion error, and the
"Unable to get past login page" error of `writeMetrics`. -/
inductive PError where
  | notFound
  | convErr
  | loginPage
deriving DecidableEq

/-- Outcome of a fallible Go computation: a value, a returned error, or a
runtime panic (`crash`: nil-pointer dereference or index out of range). -/
inductive PResult (α : Type) where
  | ok (a : α)
  | err (e : PError)
  | crash
deriving DecidableEq

/-- Sequencing that propagates errors and panics. -/
def PResult.bind {α β : Type} : PResult α → (α → PResult β) → PResult β
  | .ok a, f => f a
  | .err e, _ => .err e
  | .crash, _ => .crash

/-- Go slice indexing `row[i]`: out of range is a runtime panic. -/
def idx (row : List String) (i : Nat) : PResult String :=
  match row.get? i with
  | some s => .ok s
  | none => .crash

/-- Lift a `strconv` result: a failed conversion is a returned error. -/
def conv {α : Type} : Option α → PResult α
  | some v => .ok v
  | none => .err .convErr

/-- The downstream record (`downstreamChannel` in arris-scrape.go). -/
structure downstreamChannel where
  ChannelID : String
  LockStatus : String
  Modulation : String
  FrequencyHz : Int
  PowerdBmV : ℚ
  SNRMERdB : ℚ
  Corrected : Int
  Uncorrectables : Int
deriving DecidableEq

/-- The upstream record (`upstreamChannel` in arris-scrape.go). -/
structure upstreamChannel where
  Channel : String
  ChannelID : String
  LockStatus : String
  ChannelType : String
  FrequencyHz : Int
  WidthHz : Int
  PowerdBmV : ℚ
deriving DecidableEq

/-- The loop body of `parseDownstream` for one scraped row, in the Go
evaluation order: `row[3]` through `row[7]` with their conversions, then
`row[0]`, `row[1]`, `row[2]` in the record literal. -/
def downRowParse (row : List String) : PResult downstreamChannel :=
  (idx row 3).bind fun c3 => (conv (parseIntGo (firstField c3))).bind fun frequencyHz =>
  (idx row 4).bind fun c4 => (conv (parseFloatGo (firstField c4))).bind fun powerdBmV =>
  (idx row 5).bind fun c5 => (conv (parseFloatGo (firstField c5))).bind fun snrMERdB =>
  (idx row 6).bind fun c6 => (conv (parseIntGo c6)).bind fun corrected =>
  (idx row 7).bind fun c7 => (conv (parseIntGo c7)).bind fun uncorrectables =>
  (idx row 0).bind fun c0 => (idx row 1).bind fun c1 => (idx row 2).bind fun c2 =>
  .ok { ChannelID := c0, LockStatus := c1, Modulation := c2,
        FrequencyHz := frequencyHz, PowerdBmV := powerdBmV, SNRMERdB := snrMERdB,
        Corrected := corrected, Uncorrectables := uncorrectables }

/-- The loop body of `parseUpstream` for one scraped row: `row[4]`,
`row[5]`, `row[6]` with their conversions, then `row[0]` … `row[3]`. -/
def upRowParse (row : List String) : PResult upstreamChannel :=
  (idx row 4).bind fun c4 => (conv (parseIntGo (firstField c4))).bind fun frequencyHz =>
  (idx row 5).bind fun c5 => (conv (parseIntGo (firstField c5))).bind fun widthHz =>
  (idx row 6).bind fun c6 => (conv (parseFloatGo (firstField c6))).bind fun powerdBmV =>
  (idx row 0).bind fun c0 => (idx row 1).bind fun c1 =>
  (idx row 2).bind fun c2 => (idx row 3).bind fun c3 =>
  .ok { Channel := c0, ChannelID := c1, LockStatus := c2, ChannelType := c3,
        FrequencyHz := frequencyHz, WidthHz := widthHz, PowerdBmV := powerdBmV }

/-- The `for _, row := range scrapeTable(...)` loop: parse each row in
order, aborting the whole parse at the first error or panic. -/
def parseRows {α : Type} (f : List String → PResult α) :
    List (List String) → PResult (List α)
  | [] => .ok []
  | r :: rs =>
    (f r).bind fun a => (parseRows f rs).bind fun rest' => .ok (a :: rest')

/-- The scraping stage both parse functions share: find the heading text
node, evaluate `.Parent.Parent.Parent`, and run `scrapeTable` on the
result. -/
def tableRaws (t : HNode) (title : String) : PResult (List (List String)) :=
  match findTextNode t title [] with
  | none => .err .notFound
  | some (_, anc) =>
    match thirdAncestor anc with
    | none => .crash
    | some x =>
      match scrapeTable x with
      | none => .crash
      | some raws => .ok raws

/-- The scraping stage of `parseDownstream`. -/
def downRaws (t : HNode) : PResult (List (List String)) :=
  tableRaws t "Downstream Bonded Channels"

/-- The scraping stage of `parseUpstream`. -/
def upRaws (t : HNode) : PResult (List (List String)) :=
  tableRaws t "Upstream Bonded Channels"

/-- `parseDownstream` from arris-scrape.go. -/
def parseDownstream (t : HNode) : PResult (List downstreamChannel) :=
  (downRaws t).bind (parseRows downRowParse)

/-- `parseUpstream` from arris-scrape.go. -/
def parseUpstream (t : HNode) : PResult (List upstreamChannel) :=
  (upRaws t).bind (parseRows upRowParse)

/-- Spec-reading variant for claim C1 (refinement comparison only; the
authoritative definition is `downRaws`).  Follows the spec's words: the node
reached by ascending exactly three ownership levels is taken to be the
table, and the rows scanned are that table's children rather than the
reached node and its following siblings. -/
def downRawsSpecReading (t : HNode) : PResult (List (List String)) :=
  match findTextNode t "Downstream Bonded Channels" [] with
  | none => .err .notFound
  | some (_, anc) =>
    match thirdAncestor anc with
    | none => .crash
    | some x =>
      match scrapeTable x.firstChild with
      | none => .crash
      | some raws => .ok raws

/-- `fmt.Fprintf` with `%v` on an `int`/`int64`: decimal. -/
def renderInt (i : Int) : String := toString i

/-- `fmt.Fprintf` with `%v` on a `float64`, for values whose denominator is
a power of ten (every value `parseFloatGo` produces): shortest plain decimal
form.  Scientific notation for extreme magnitudes is not modelled. -/
def renderQ (q : ℚ) : String :=
  if q.den = 1 then toString q.num
  else
    match (List.range (q.den + 1)).find? (fun k => q.den ∣ 10 ^ k) with
    | none => toString q.num ++ "/" ++ toString q.den
    | some k =>
      let scaled : Nat := q.num.natAbs * (10 ^ k / q.den)
      let ipart := scaled / 10 ^ k
      let fr := scaled % 10 ^ k
      let frs := Nat.toDigits 10 fr
      let pad := List.replicate (k - frs.length) '0'
      (if q.num < 0 then "-" else "") ++ toString ipart ++ "." ++ String.mk (pad ++ frs)

/-- `%q` on a string: double-quoted, with quote and backslash escaped (the
printable-ASCII fragment of Go's quoting). -/
def goQuote (s : String) : String :=
  "\"" ++ String.mk (s.toList.flatMap fun c =>
    if c = '"' then ['\\', '"'] else if c = '\\' then ['\\', '\\'] else [c]) ++ "\""

/-- The five downstream metric lines for one record, in the order of the
`writeMetrics` loop body. -/
def dsLines (d : downstreamChannel) : List String :=
  ["downstream_bonded_channels_frequency_hz\x7bchannel_id=" ++ goQuote d.ChannelID
     ++ "\x7d " ++ renderInt d.FrequencyHz,
   "downstream_bonded_channels_power_dbmv\x7bchannel_id=" ++ goQuote d.ChannelID
     ++ "\x7d " ++ renderQ d.PowerdBmV,
   "downstream_bonded_channels_snr_mer_db\x7bchannel_id=" ++ goQuote d.ChannelID
     ++ "\x7d " ++ renderQ d.SNRMERdB,
   "downstream_bonded_channels_corrected\x7bchannel_id=" ++ goQuote d.ChannelID
     ++ "\x7d " ++ renderInt d.Corrected,
   "downstream_bonded_channels_uncorrectables\x7bchannel_id=" ++ goQuote d.ChannelID
     ++ "\x7d " ++ renderInt d.Uncorrectables]

/-- The three upstream metric lines for one record. -/
def usLines (u : upstreamChannel) : List String :=
  ["upstream_bonded_channels_frequency_hz\x7bchannel_id=" ++ goQuote u.ChannelID
     ++ "\x7d " ++ renderInt u.FrequencyHz,
   "upstream_bonded_channels_width_hz\x7bchannel_id=" ++ goQuote u.ChannelID
     ++ "\x7d " ++ renderInt u.WidthHz,
   "upstream_bonded_channels_power_dbmv\x7bchannel_id=" ++ goQuote u.ChannelID
     ++ "\x7d " ++ renderQ u.PowerdBmV]

/-- All lines the two `writeMetrics` loops emit: every downstream record's
five lines in extraction order, then every upstream record's three lines. -/
def writerLines (ds : List downstreamChannel) (us : List upstreamChannel) :
    List String :=
  ds.flatMap dsLines ++ us.flatMap usLines

/-- Outcome of `writeMetrics`: the lines written to the sink, and on
failure the lines already written before the error or panic. -/
inductive WResult where
  | ok (lines : List String)
  | err (written : List String) (e : PError)
  | crashed (written : List String)
deriving DecidableEq

/-- The pure part of `writeMetrics` (everything after the page fetch):
the login check, `parseDownstream`, the downstream loop, `parseUpstream`,
the upstream loop. -/
def writeMetricsModel (page : HNode) : WResult :=
  if (findTextNode page "Login" []).isSome then .err [] .loginPage
  else
    match parseDownstream page with
    | .crash => .crashed []
    | .err e => .err [] e
    | .ok ds =>
      match parseUpstream page with
      | .crash => .crashed (ds.flatMap dsLines)
      | .err e => .err (ds.flatMap dsLines) e
      | .ok us => .ok (writerLines ds us)

/-- The modem as an oracle for the two HTTP interactions `fetchPage`
performs: `pageFor tok` is the parsed body of
`GET /cmconnectionstatus.html?ct_<tok>`, and `newToken` is the body of the
authentication request of the login handshake (steps 1–2 of §4.1). -/
structure Device where
  pageFor : String → HNode
  newToken : String

/-- What one `fetchPage` call did: the final cached token, the returned
page, and how many login handshakes and `fetchPageInner` calls happened. -/
structure FetchTrace where
  token : String
  page : HNode
  handshakes : Nat
  innerFetches : Nat
deriving DecidableEq

/-- `fetchPage` from arris-scrape.go: with a non-empty cached token, fetch
directly and return the page unless it contains a `"Login"` text node;
otherwise (and when no token is cached) run the handshake once, cache the
token from the auth response, and fetch exactly once more. -/
def fetchPageModel (dev : Device) (tok : String) : FetchTrace :=
  if tok ≠ "" then
    let p := dev.pageFor tok
    if (findTextNode p "Login" []).isNone then
      { token := tok, page := p, handshakes := 0, innerFetches := 1 }
    else
      { token := dev.newToken, page := dev.pageFor dev.newToken,
        handshakes := 1, innerFetches := 2 }
  else
    { token := dev.newToken, page := dev.pageFor dev.newToken,
      handshakes := 1, innerFetches := 1 }

/-- One `writeMetrics` invocation starting from cached token `tok`. -/
def writeMetricsRun (dev : Device) (tok : String) : WResult :=
  writeMetricsModel (fetchPageModel dev tok).page

/-- Well-formedness of one scraped downstream row, §6 schema: at least 8
columns, and the five numeric columns convert exactly as the code converts
them (columns 3–5 after splitting at the first space, columns 6–7 whole). -/
def downRowWF (row : List String) : Bool :=
  decide (8 ≤ row.length)
    && (parseIntGo (firstField (row.getD 3 ""))).isSome
    && (parseFloatGo (firstField (row.getD 4 ""))).isSome
    && (parseFloatGo (firstField (row.getD 5 ""))).isSome
    && (parseIntGo (row.getD 6 "")).isSome
    && (parseIntGo (row.getD 7 "")).isSome

/-- Some numeric column of a downstream row fails its conversion. -/
def rowBadNumeric (row : List String) : Bool :=
  (parseIntGo (firstField (row.getD 3 ""))).isNone
    || (parseFloatGo (firstField (row.getD 4 ""))).isNone
    || (parseFloatGo (firstField (row.getD 5 ""))).isNone
    || (parseIntGo (row.getD 6 "")).isNone
    || (parseIntGo (row.getD 7 "")).isNone

/-- The record produced for a row carries, in each numeric field, exactly
the numeric value of the prefix of the corresponding cell before the first
space (§6 positions 3=FrequencyHz, 4=PowerdBmV, 5=SNRMERdB, 6=Corrected,
7=Uncorrectables). -/
def downMatches (row : List String) (rec : downstreamChannel) : Prop :=
  parseIntGo (firstField (row.getD 3 "")) = some rec.FrequencyHz
    ∧ parseFloatGo (firstField (row.getD 4 "")) = some rec.PowerdBmV
    ∧ parseFloatGo (firstField (row.getD 5 "")) = some rec.SNRMERdB
    ∧ parseIntGo (firstField (row.getD 6 "")) = some rec.Corrected
    ∧ parseIntGo (firstField (row.getD 7 "")) = some rec.Uncorrectables

/-- A text leaf. -/
def textLeaf (s : String) : HNode := .node .textNode s [] .nil .nil

/-- A `<td>` cell holding one text child, with a given right sibling. -/
def tdCell (s : String) (ns : HNode) : HNode :=
  .node .elementNode "td" [] (textLeaf s) ns

/-- The `align="left"` attribute as the device page writes it. -/
def alignLeft : MAttribute := { Namespace := "", Key := "align", Val := "left" }

/-- Heading cell `<th><strong>Downstream Bonded Channels</strong></th>`. -/
def headCellD : HNode :=
  .node .elementNode "th" []
    (.node .elementNode "strong" [] (textLeaf "Downstream Bonded Channels") .nil) .nil

/-- Heading cell for the upstream table. -/
def headCellU : HNode :=
  .node .elementNode "th" []
    (.node .elementNode "strong" [] (textLeaf "Upstream Bonded Channels") .nil) .nil

/-- A well-formed downstream data row (8 cells, §6 schema). -/
def goodRowD : HNode :=
  .node .elementNode "tr" [alignLeft]
    (tdCell "1" (tdCell "Locked" (tdCell "QAM256" (tdCell "543000000 Hz"
      (tdCell "-2.3 dBmV" (tdCell "39.5 dB" (tdCell "12" (tdCell "0" .nil))))))))
    .nil

/-- A well-formed upstream data row (7 cells, §6 schema). -/
def goodRowU : HNode :=
  .node .elementNode "tr" [alignLeft]
    (tdCell "1" (tdCell "2" (tdCell "Locked" (tdCell "SC-QAM"
      (tdCell "35600000 Hz" (tdCell "6400000 Hz" (tdCell "42.0 dBmV" .nil)))))))
    .nil

/-- Downstream heading row followed by one well-formed data row. -/
def headRowWF : HNode := .node .elementNode "tr" [] headCellD goodRowD

/-- A well-formed page with one downstream table of one data row. -/
def pageWF : HNode := .node .elementNode "table" [] headRowWF .nil

/-- The scraped cell texts of `goodRowD`. -/
def goodRawD : List String :=
  ["1", "Locked", "QAM256", "543000000 Hz", "-2.3 dBmV", "39.5 dB", "12", "0"]

/-- The record `parseDownstream` produces for `goodRowD`. -/
def goodRecD : downstreamChannel :=
  { ChannelID := "1", LockStatus := "Locked", Modulation := "QAM256",
    FrequencyHz := 543000000, PowerdBmV := -23/10, SNRMERdB := 395/10,
    Corrected := 12, Uncorrectables := 0 }

/-- The record `parseUpstream` produces for `goodRowU`. -/
def goodRecU : upstreamChannel :=
  { Channel := "1", ChannelID := "2", LockStatus := "Locked",
    ChannelType := "SC-QAM", FrequencyHz := 35600000, WidthHz := 6400000,
    PowerdBmV := 42 }

/-- A page holding both tables: a downstream table then an upstream table. -/
def pageBoth : HNode :=
  .node .elementNode "body" []
    (.node .elementNode "table" [] headRowWF
      (.node .elementNode "table" []
        (.node .elementNode "tr" [] headCellU goodRowU) .nil))
    .nil

/-- Like `goodRowD` but with a non-numeric frequency cell. -/
def badRowD : HNode :=
  .node .elementNode "tr" [alignLeft]
    (tdCell "1" (tdCell "Locked" (tdCell "QAM256" (tdCell "x Hz"
      (tdCell "-2.3 dBmV" (tdCell "39.5 dB" (tdCell "12" (tdCell "0" .nil))))))))
    .nil

/-- A page whose only data row has a non-convertible numeric cell. -/
def pageBad : HNode :=
  .node .elementNode "table" [] (.node .elementNode "tr" [] headCellD badRowD) .nil

/-- A page whose only data row has a single cell (fewer columns than the
schema requires). -/
def pageShort : HNode :=
  .node .elementNode "table" []
    (.node .elementNode "tr" [] headCellD
      (.node .elementNode "tr" [alignLeft] (tdCell "1" .nil) .nil))
    .nil

/-- A page whose only data row contains an empty `<td>` (no children). -/
def pageEmptyTd : HNode :=
  .node .elementNode "table" []
    (.node .elementNode "tr" [] headCellD
      (.node .elementNode "tr" [alignLeft]
        (.node .elementNode "td" [] .nil .nil) .nil))
    .nil

/-- Counterexample tree for C1: the heading text sits three levels below a
row that itself carries the `align="left"` attribute, so the node reached by
three ascents is a data row, not a container of data rows. -/
def pageRowSelf : HNode :=
  .node .elementNode "tr" [alignLeft] headCellD .nil

/-- A page that still shows the login page: it contains a `"Login"` text
node. -/
def pageLogin : HNode :=
  .node .elementNode "body" [] (textLeaf "Login") .nil

/-- A device that always serves the login page (the cached and the fresh
token are both rejected). -/
def devLogin : Device := { pageFor := fun _ => pageLogin, newToken := "fresh" }

/-- A device that serves the same well-formed page whatever the token. -/
def devConst : Device := { pageFor := fun _ => pageBoth, newToken := "fresh" }

/-- The scraped cell texts of `badRowD`. -/
def badRawD : List String :=
  ["1", "Locked", "QAM256", "x Hz", "-2.3 dBmV", "39.5 dB", "12", "0"]

/-- Some numeric column of an upstream row fails its conversion
(positions 4=FrequencyHz, 5=WidthHz, 6=PowerdBmV). -/
def upRowBadNumeric (row : List String) : Bool :=
  (parseIntGo (firstField (row.getD 4 ""))).isNone
    || (parseIntGo (firstField (row.getD 5 ""))).isNone
    || (parseFloatGo (firstField (row.getD 6 ""))).isNone

/-- The scraped cell texts of `goodRowU`. -/
def goodRawU : List String :=
  ["1", "2", "Locked", "SC-QAM", "35600000 Hz", "6400000 Hz", "42.0 dBmV"]

/-- Like `goodRowU` but with a non-numeric frequency cell. -/
def badRowU : HNode :=
  .node .elementNode "tr" [alignLeft]
    (tdCell "1" (tdCell "2" (tdCell "Locked" (tdCell "SC-QAM"
      (tdCell "x Hz" (tdCell "6400000 Hz" (tdCell "42.0 dBmV" .nil)))))))
    .nil

/-- The scraped cell texts of `badRowU`. -/
def badRawU : List String :=
  ["1", "2", "Locked", "SC-QAM", "x Hz", "6400000 Hz", "42.0 dBmV"]

/-- An upstream page whose only data row has a non-convertible numeric
cell. -/
def pageBadU : HNode :=
  .node .elementNode "table" [] (.node .elementNode "tr" [] headCellU badRowU) .nil

/-- A page whose first qualifying data row is short (a single cell) and
whose second qualifying data row has a non-convertible numeric cell: the
parse hits the out-of-range index of the short row before it ever reaches
the bad cell. -/
def pageShortBad : HNode :=
  .node .elementNode "table" []
    (.node .elementNode "tr" [] headCellD
      (.node .elementNode "tr" [alignLeft] (tdCell "1" .nil) badRowD))
    .nil

theorem findTextNode_map_fst (t : HNode) (s : String) (anc : List HNode) :
    (findTextNode t s anc).map Prod.fst =
      (preorderNodes t).find? (fun n => isTextEq n s) := by
  induction t generalizing anc with
  | nil => rfl
  | node ty d a fc ns ihfc ihns =>
    rw [findTextNode, preorderNodes]
    by_cases h : ty = NodeType.textNode ∧ d = s
    · rw [if_pos h, List.find?_cons_of_pos]
      · rfl
      · simp [isTextEq, h.1, h.2]
    · rw [if_neg h, List.find?_cons_of_neg]
      · rw [List.find?_append, ← ihfc (HNode.node ty d a fc ns :: anc), ← ihns anc]
        cases hfc : findTextNode fc s (HNode.node ty d a fc ns :: anc) with
        | some r => simp [Option.or]
        | none => simp [Option.or]
      · simp only [isTextEq, Bool.and_eq_true, decide_eq_true_eq]
        exact h

theorem findTextNode_none_iff (t : HNode) (s : String) :
    findTextNode t s [] = none ↔
      ∀ n ∈ preorderNodes t, isTextEq n s = false := by
  have h := findTextNode_map_fst t s []
  constructor
  · intro hf n hn
    rw [hf] at h
    simpa using List.find?_eq_none.mp h.symm n hn
  · intro hall
    have hnone : (preorderNodes t).find? (fun n => isTextEq n s) = none :=
      List.find?_eq_none.mpr (fun x hx => by simp [hall x hx])
    rw [hnone] at h
    cases hf : findTextNode t s [] with
    | none => rfl
    | some r => rw [hf] at h; simp at h

theorem scrapeTable_eq (x : HNode) :
    scrapeTable x =
      ((siblingList x).filter isDataRow).mapM (fun r => cellVals r.firstChild) := by
  induction x with
  | nil => rfl
  | node ty d a fc ns _ ihns =>
    rw [scrapeTable, siblingList]
    by_cases h : isDataRow (HNode.node ty d a fc ns) = true
    · rw [if_pos h, List.filter_cons_of_pos h, List.mapM_cons, ← ihns]
      show _ = (cellVals fc).bind _
      cases cellVals fc with
      | none => rfl
      | some vs =>
        cases scrapeTable ns with
        | none => rfl
        | some rest => rfl
    · rw [if_neg h, List.filter_cons_of_neg h]
      exact ihns

theorem cellVals_isSome_of_cellsOK {c : HNode} (h : cellsOK c = true) :
    (cellVals c).isSome := by
  induction c with
  | nil => rfl
  | node ty d a fc ns _ ihns =>
    rw [cellsOK, Bool.and_eq_true] at h
    by_cases hd : d = "td"
    · cases fc with
      | nil =>
        exfalso
        have := h.1
        simp [hd] at this
      | node ty2 d2 a2 fc2 ns2 =>
        rw [cellVals, if_pos hd]
        have := ihns h.2
        cases hv : cellVals ns with
        | none => rw [hv] at this; exact absurd this (by simp)
        | some vs => simp [hv]
    · cases fc with
      | nil => rw [cellVals, if_neg hd]; exact ihns h.2
      | node ty2 d2 a2 fc2 ns2 => rw [cellVals, if_neg hd]; exact ihns h.2

theorem mapM_isSome_of_forall {α β : Type} (f : α → Option β) :
    ∀ l : List α, (∀ x ∈ l, (f x).isSome) → (l.mapM f).isSome
  | [], _ => rfl
  | x :: xs, h => by
    rw [List.mapM_cons]
    cases hx : f x with
    | none => exact absurd (hx ▸ h x (by simp)) (by simp)
    | some b =>
      have := mapM_isSome_of_forall f xs (fun y hy => h y (List.mem_cons_of_mem _ hy))
      cases hxs : xs.mapM f with
      | none => rw [hxs] at this; exact absurd this (by simp)
      | some bs => simp [hx, hxs]

theorem PResult.bind_eq_err {α β : Type} {a : PResult α} {f : α → PResult β}
    {e : PError} :
    a.bind f = .err e ↔ a = .err e ∨ ∃ x, a = .ok x ∧ f x = .err e := by
  cases a <;> simp [PResult.bind]

theorem PResult.bind_eq_crash {α β : Type} {a : PResult α} {f : α → PResult β} :
    a.bind f = .crash ↔ a = .crash ∨ ∃ x, a = .ok x ∧ f x = .crash := by
  cases a <;> simp [PResult.bind]

theorem PResult.ok_bind {α β : Type} (x : α) (f : α → PResult β) :
    (PResult.ok x).bind f = f x := rfl

theorem idx_ne_err (row : List String) (i : Nat) (e : PError) :
    idx row i ≠ .err e := by
  unfold idx
  cases row.get? i <;> simp

theorem idx_eq_crash_iff {row : List String} {i : Nat} :
    idx row i = .crash ↔ row.get? i = none := by
  unfold idx
  cases row.get? i <;> simp

theorem idx_eq_ok_iff {row : List String} {i : Nat} {s : String} :
    idx row i = .ok s ↔ row.get? i = some s := by
  unfold idx
  cases row.get? i <;> simp

theorem conv_eq_err_iff {α : Type} {o : Option α} {e : PError} :
    conv o = .err e ↔ o = none ∧ e = .convErr := by
  cases o <;> simp [conv, eq_comm]

theorem conv_ne_crash {α : Type} (o : Option α) : conv o ≠ .crash := by
  cases o <;> simp [conv]

theorem conv_eq_ok_iff {α : Type} {o : Option α} {v : α} :
    conv o = .ok v ↔ o = some v := by
  cases o <;> simp [conv]

theorem get?_getD {l : List String} {i : Nat} (h : i < l.length) :
    l.get? i = some (l.getD i "") := by
  rw [List.getD_eq_getD_get?]
  cases hg : l.get? i with
  | none => rw [List.get?_eq_none] at hg; omega
  | some a => rfl

theorem parseRows_ok_of {α : Type} {f : List String → PResult α}
    {M : List String → α → Prop} :
    ∀ {rs : List (List String)}, (∀ r ∈ rs, ∃ a, f r = .ok a ∧ M r a) →
      ∃ out, parseRows f rs = .ok out ∧ List.Forall₂ M rs out
  | [], _ => ⟨[], rfl, List.Forall₂.nil⟩
  | r :: rs, h => by
    obtain ⟨a, ha, hm⟩ := h r (by simp)
    obtain ⟨out, hout, hf⟩ :=
      parseRows_ok_of (fun r' hr' => h r' (List.mem_cons_of_mem _ hr'))
    exact ⟨a :: out, by rw [parseRows, ha, PResult.ok_bind, hout, PResult.ok_bind],
      List.Forall₂.cons hm hf⟩

theorem parseRows_err {α : Type} {f : List String → PResult α} :
    ∀ {rs : List (List String)} {e : PError}, parseRows f rs = .err e →
      ∃ r ∈ rs, f r = .err e
  | [], e, h => by simp [parseRows] at h
  | r :: rs, e, h => by
    rw [parseRows, PResult.bind_eq_err] at h
    rcases h with h1 | ⟨x, _, h2⟩
    · exact ⟨r, by simp, h1⟩
    · rw [PResult.bind_eq_err] at h2
      rcases h2 with h3 | ⟨y, _, h4⟩
      · obtain ⟨r', hr', hfr⟩ := parseRows_err h3
        exact ⟨r', List.mem_cons_of_mem _ hr', hfr⟩
      · cases h4

theorem parseRows_no_crash {α : Type} {f : List String → PResult α} :
    ∀ {rs : List (List String)}, (∀ r ∈ rs, f r ≠ .crash) →
      parseRows f rs ≠ .crash
  | [], _, h => by simp [parseRows] at h
  | r :: rs, hnc, h => by
    rw [parseRows, PResult.bind_eq_crash] at h
    rcases h with h1 | ⟨x, _, h2⟩
    · exact hnc r (by simp) h1
    · rw [PResult.bind_eq_crash] at h2
      rcases h2 with h3 | ⟨y, _, h4⟩
      · exact parseRows_no_crash (fun r' hr' => hnc r' (List.mem_cons_of_mem _ hr')) h3
      · cases h4

theorem parseRows_err_of {α : Type} {f : List String → PResult α} :
    ∀ {rs : List (List String)}, (∀ r ∈ rs, f r ≠ .crash) →
      (∀ r ∈ rs, ∀ e, f r = .err e → e = .convErr) →
      (∃ r ∈ rs, f r = .err .convErr) →
      parseRows f rs = .err .convErr
  | [], _, _, hex => by simp at hex
  | r :: rs, hnc, hek, hex => by
    rw [parseRows]
    cases hr : f r with
    | err e0 =>
      rw [hek r (by simp) e0 hr]
      rfl
    | crash => exact absurd hr (hnc r (by simp))
    | ok a =>
      rw [PResult.ok_bind]
      have hex' : ∃ r' ∈ rs, f r' = .err .convErr := by
        rcases hex with ⟨r', hr', hfr⟩
        rcases List.mem_cons.mp hr' with rfl | hmem
        · rw [hr] at hfr; cases hfr
        · exact ⟨r', hmem, hfr⟩
      rw [parseRows_err_of (fun r' hr' => hnc r' (List.mem_cons_of_mem _ hr'))
        (fun r' hr' => hek r' (List.mem_cons_of_mem _ hr')) hex']
      rfl

theorem conv_eq_crash_iff {α : Type} {o : Option α} :
    conv o = .crash ↔ False := by
  cases o <;> simp [conv]

theorem digitsVal_no_space {l : List Char} {n : Nat} (h : digitsVal l = some n) :
    ∀ c ∈ l, c ≠ ' ' := by
  intro c hc hsp
  unfold digitsVal at h
  by_cases hcond : l ≠ [] ∧ l.all Char.isDigit
  · have hall := hcond.2
    rw [List.all_eq_true] at hall
    have hd := hall _ hc
    rw [hsp] at hd
    exact absurd hd (by decide)
  · rw [if_neg hcond] at h
    cases h

theorem parseSignedDigits_no_space {l : List Char} {v : Int}
    (h : parseSignedDigits l = some v) : ∀ c ∈ l, c ≠ ' ' := by
  intro c hc
  unfold parseSignedDigits at h
  split at h
  next r =>
    cases hd : digitsVal r with
    | none => rw [hd] at h; simp at h
    | some m =>
      rcases List.mem_cons.mp hc with rfl | hmem
      · decide
      · exact digitsVal_no_space hd _ hmem
  next r =>
    cases hd : digitsVal r with
    | none => rw [hd] at h; simp at h
    | some m =>
      rcases List.mem_cons.mp hc with rfl | hmem
      · decide
      · exact digitsVal_no_space hd _ hmem
  next h1 h2 =>
    cases hd : digitsVal l with
    | none => rw [hd] at h; simp at h
    | some m => exact digitsVal_no_space hd _ hc

theorem parseIntGo_firstField {s : String} {v : Int} (h : parseIntGo s = some v) :
    firstField s = s := by
  unfold parseIntGo at h
  cases hp : parseSignedDigits s.toList with
  | none => rw [hp] at h; cases h
  | some v0 =>
    have hns := parseSignedDigits_no_space hp
    unfold firstField
    rw [List.takeWhile_eq_self_iff.mpr (fun c hc => by simpa using hns c hc)]
    cases s
    rfl

theorem downRowParse_no_crash {row : List String} (h8 : 8 ≤ row.length) :
    downRowParse row ≠ .crash := by
  intro h
  have hg0 := get?_getD (show (0:Nat) < row.length by omega)
  have hg1 := get?_getD (show (1:Nat) < row.length by omega)
  have hg2 := get?_getD (show (2:Nat) < row.length by omega)
  have hg3 := get?_getD (show (3:Nat) < row.length by omega)
  have hg4 := get?_getD (show (4:Nat) < row.length by omega)
  have hg5 := get?_getD (show (5:Nat) < row.length by omega)
  have hg6 := get?_getD (show (6:Nat) < row.length by omega)
  have hg7 := get?_getD (show (7:Nat) < row.length by omega)
  simp only [downRowParse, PResult.bind_eq_crash, idx_eq_crash_iff, idx_eq_ok_iff,
    conv_eq_crash_iff, conv_eq_ok_iff, hg0, hg1, hg2, hg3, hg4, hg5, hg6, hg7,
    reduceCtorEq, Option.some.injEq, or_false, false_or, false_and, and_false,
    exists_false, or_self] at h

theorem downRowParse_ok {row : List String} (h : downRowWF row = true) :
    ∃ rec, downRowParse row = .ok rec ∧ downMatches row rec := by
  simp only [downRowWF, Bool.and_eq_true, decide_eq_true_eq,
    Option.isSome_iff_exists] at h
  obtain ⟨⟨⟨⟨⟨h8, v3, hv3⟩, v4, hv4⟩, v5, hv5⟩, v6, hv6⟩, v7, hv7⟩ := h
  have i0 : idx row 0 = .ok (row.getD 0 "") := idx_eq_ok_iff.mpr (get?_getD (by omega))
  have i1 : idx row 1 = .ok (row.getD 1 "") := idx_eq_ok_iff.mpr (get?_getD (by omega))
  have i2 : idx row 2 = .ok (row.getD 2 "") := idx_eq_ok_iff.mpr (get?_getD (by omega))
  have i3 : idx row 3 = .ok (row.getD 3 "") := idx_eq_ok_iff.mpr (get?_getD (by omega))
  have i4 : idx row 4 = .ok (row.getD 4 "") := idx_eq_ok_iff.mpr (get?_getD (by omega))
  have i5 : idx row 5 = .ok (row.getD 5 "") := idx_eq_ok_iff.mpr (get?_getD (by omega))
  have i6 : idx row 6 = .ok (row.getD 6 "") := idx_eq_ok_iff.mpr (get?_getD (by omega))
  have i7 : idx row 7 = .ok (row.getD 7 "") := idx_eq_ok_iff.mpr (get?_getD (by omega))
  refine ⟨⟨row.getD 0 "", row.getD 1 "", row.getD 2 "", v3, v4, v5, v6, v7⟩, ?_, ?_⟩
  · simp only [downRowParse, i0, i1, i2, i3, i4, i5, i6, i7, PResult.ok_bind,
      hv3, hv4, hv5, hv6, hv7, conv]
  · have f6 : firstField (row.getD 6 "") = row.getD 6 "" := parseIntGo_firstField hv6
    have f7 : firstField (row.getD 7 "") = row.getD 7 "" := parseIntGo_firstField hv7
    exact ⟨hv3, hv4, hv5, by rw [f6]; exact hv6, by rw [f7]; exact hv7⟩

theorem downRowParse_bad {row : List String} (h8 : 8 ≤ row.length)
    (hbad : rowBadNumeric row = true) : downRowParse row = .err .convErr := by
  have i3 : idx row 3 = .ok (row.getD 3 "") := idx_eq_ok_iff.mpr (get?_getD (by omega))
  have i4 : idx row 4 = .ok (row.getD 4 "") := idx_eq_ok_iff.mpr (get?_getD (by omega))
  have i5 : idx row 5 = .ok (row.getD 5 "") := idx_eq_ok_iff.mpr (get?_getD (by omega))
  have i6 : idx row 6 = .ok (row.getD 6 "") := idx_eq_ok_iff.mpr (get?_getD (by omega))
  have i7 : idx row 7 = .ok (row.getD 7 "") := idx_eq_ok_iff.mpr (get?_getD (by omega))
  rw [downRowParse, i3, PResult.ok_bind]
  cases hv3 : parseIntGo (firstField (row.getD 3 "")) with
  | none => rfl
  | some v3 =>
    rw [show conv (some v3) = PResult.ok v3 from rfl, PResult.ok_bind, i4,
      PResult.ok_bind]
    cases hv4 : parseFloatGo (firstField (row.getD 4 "")) with
    | none => rfl
    | some v4 =>
      rw [show conv (some v4) = PResult.ok v4 from rfl, PResult.ok_bind, i5,
        PResult.ok_bind]
      cases hv5 : parseFloatGo (firstField (row.getD 5 "")) with
      | none => rfl
      | some v5 =>
        rw [show conv (some v5) = PResult.ok v5 from rfl, PResult.ok_bind, i6,
          PResult.ok_bind]
        cases hv6 : parseIntGo (row.getD 6 "") with
        | none => rfl
        | some v6 =>
          rw [show conv (some v6) = PResult.ok v6 from rfl, PResult.ok_bind, i7,
            PResult.ok_bind]
          cases hv7 : parseIntGo (row.getD 7 "") with
          | none => rfl
          | some v7 =>
            exfalso
            simp only [rowBadNumeric, hv3, hv4, hv5, hv6, hv7, Option.isNone_some,
              Bool.or_self, Bool.or_false, false_or] at hbad
            exact absurd hbad (by decide)

theorem downRowParse_err {row : List String} {e : PError}
    (h : downRowParse row = .err e) : e = PError.convErr := by
  simp only [downRowParse, PResult.bind_eq_err, idx_eq_ok_iff, conv_eq_err_iff,
    conv_eq_ok_iff, idx_ne_err, ne_eq, reduceCtorEq, or_false, false_and,
    exists_and_right, false_or] at h
  tauto

theorem upRowParse_err {row : List String} {e : PError}
    (h : upRowParse row = .err e) : e = PError.convErr := by
  simp only [upRowParse, PResult.bind_eq_err, idx_eq_ok_iff, conv_eq_err_iff,
    conv_eq_ok_iff, idx_ne_err, ne_eq, reduceCtorEq, or_false, false_and,
    exists_and_right, false_or] at h
  tauto

theorem upRowParse_no_crash {row : List String} (h7 : 7 ≤ row.length) :
    upRowParse row ≠ .crash := by
  intro h
  have hg0 := get?_getD (show (0:Nat) < row.length by omega)
  have hg1 := get?_getD (show (1:Nat) < row.length by omega)
  have hg2 := get?_getD (show (2:Nat) < row.length by omega)
  have hg3 := get?_getD (show (3:Nat) < row.length by omega)
  have hg4 := get?_getD (show (4:Nat) < row.length by omega)
  have hg5 := get?_getD (show (5:Nat) < row.length by omega)
  have hg6 := get?_getD (show (6:Nat) < row.length by omega)
  simp only [upRowParse, PResult.bind_eq_crash, idx_eq_crash_iff, idx_eq_ok_iff,
    conv_eq_crash_iff, conv_eq_ok_iff, hg0, hg1, hg2, hg3, hg4, hg5, hg6,
    reduceCtorEq, Option.some.injEq, or_false, false_or, false_and, and_false,
    exists_false, or_self] at h

theorem upRowParse_bad {row : List String} (h7 : 7 ≤ row.length)
    (hbad : upRowBadNumeric row = true) : upRowParse row = .err .convErr := by
  have i4 : idx row 4 = .ok (row.getD 4 "") := idx_eq_ok_iff.mpr (get?_getD (by omega))
  have i5 : idx row 5 = .ok (row.getD 5 "") := idx_eq_ok_iff.mpr (get?_getD (by omega))
  have i6 : idx row 6 = .ok (row.getD 6 "") := idx_eq_ok_iff.mpr (get?_getD (by omega))
  rw [upRowParse, i4, PResult.ok_bind]
  cases hv4 : parseIntGo (firstField (row.getD 4 "")) with
  | none => rfl
  | some v4 =>
    rw [show conv (some v4) = PResult.ok v4 from rfl, PResult.ok_bind, i5,
      PResult.ok_bind]
    cases hv5 : parseIntGo (firstField (row.getD 5 "")) with
    | none => rfl
    | some v5 =>
      rw [show conv (some v5) = PResult.ok v5 from rfl, PResult.ok_bind, i6,
        PResult.ok_bind]
      cases hv6 : parseFloatGo (firstField (row.getD 6 "")) with
      | none => rfl
      | some v6 =>
        exfalso
        simp only [upRowBadNumeric, hv4, hv5, hv6, Option.isNone_some,
          Bool.or_self, Bool.or_false, false_or] at hbad
        exact absurd hbad (by decide)

theorem tableRaws_err_iff {t : HNode} {s : String} {e : PError} :
    tableRaws t s = .err e ↔ findTextNode t s [] = none ∧ e = .notFound := by
  unfold tableRaws
  cases hf : findTextNode t s [] with
  | none => simp [eq_comm]
  | some r =>
    obtain ⟨n0, anc⟩ := r
    cases h3 : thirdAncestor anc with
    | none => simp [h3]
    | some x => cases hs : scrapeTable x <;> simp [h3, hs]

theorem parse_notFound_iff {α : Type} (t : HNode) (s : String)
    (f : List String → PResult α)
    (hf : ∀ r e, f r = .err e → e = .convErr) :
    (tableRaws t s).bind (parseRows f) = .err .notFound ↔
      findTextNode t s [] = none := by
  constructor
  · intro h
    rw [PResult.bind_eq_err] at h
    rcases h with h1 | ⟨raws, _, h2⟩
    · exact (tableRaws_err_iff.mp h1).1
    · obtain ⟨r, _, hr⟩ := parseRows_err h2
      exact absurd (hf r _ hr) (by decide)
  · intro h
    have he : tableRaws t s = .err .notFound := tableRaws_err_iff.mpr ⟨h, rfl⟩
    rw [he]
    rfl

/-- Claim C7: for every markup tree and target string, the heading/"Login"
search returns the first text node whose text exactly equals the target
string in depth-first order with children visited before siblings (the
first occurrence in pre-order document order), and returns nothing when no
such text node exists. -/
theorem c7_theorem (t : HNode) (s : String) :
    (findTextNode t s []).map Prod.fst =
      (preorderNodes t).find? (fun n => isTextEq n s) :=
  findTextNode_map_fst t s []

/-- Claim C5: `parseDownstream` (resp. `parseUpstream`) fails with the
not-found error exactly when the page tree contains no text node exactly
equal to "Downstream Bonded Channels" (resp. "Upstream Bonded Channels"),
independent of any other content on the page. -/
theorem c5_theorem (t : HNode) :
    (parseDownstream t = .err .notFound ↔
        ∀ n ∈ preorderNodes t, isTextEq n "Downstream Bonded Channels" = false)
      ∧ (parseUpstream t = .err .notFound ↔
        ∀ n ∈ preorderNodes t, isTextEq n "Upstream Bonded Channels" = false) := by
  constructor
  · rw [show parseDownstream t
        = (tableRaws t "Downstream Bonded Channels").bind (parseRows downRowParse)
        from rfl,
      parse_notFound_iff t _ downRowParse (fun r e h => downRowParse_err h)]
    exact findTextNode_none_iff t _
  · rw [show parseUpstream t
        = (tableRaws t "Upstream Bonded Channels").bind (parseRows upRowParse)
        from rfl,
      parse_notFound_iff t _ upRowParse (fun r e h => upRowParse_err h)]
    exact findTextNode_none_iff t _

/-- Claim C1 counterexample: a tree in which the heading text node is found
and the node reached by ascending exactly three ownership levels is itself
an `align="left"` row.  The code scans that node and its following
siblings (`downRaws` returns the row `[[]]`), while the claim's reading —
scan the children of the reached "table" node — yields no rows, so the two
readings disagree on this input. -/
theorem c1_counterexample :
    (findTextNode pageRowSelf "Downstream Bonded Channels" []).isSome = true
      ∧ downRaws pageRowSelf = .ok [[]]
      ∧ downRawsSpecReading pageRowSelf = .ok []
      ∧ downRaws pageRowSelf ≠ downRawsSpecReading pageRowSelf := by
  decide

/-- Claim C1 (amended): when the heading text node is found, ascending
exactly three ownership levels reaches a row-level node (on the device page,
the heading row); the rows scanned are that node and its following siblings
in document order, and a row qualifies as a data row if and only if it has
exactly one attribute whose name is "align" and whose value is "left"
(`isDataRow`), each qualifying row contributing its cell texts. -/
theorem c1_theorem (t n0 : HNode) (anc : List HNode) (p3 : HNode)
    (h : findTextNode t "Downstream Bonded Channels" [] = some (n0, anc))
    (h3 : thirdAncestor anc = some p3) :
    downRaws t =
      match ((siblingList p3).filter isDataRow).mapM
          (fun r => cellVals r.firstChild) with
      | none => PResult.crash
      | some raws => PResult.ok raws := by
  simp only [downRaws, tableRaws, h, h3]
  rw [scrapeTable_eq]

/-- Witness for the amended C1 on a well-formed page: three ascents from
the heading text reach the heading row `headRowWF`, and the scanned rows
are `headRowWF` and its following siblings. -/
theorem c1_witness :
    downRaws pageWF =
      match ((siblingList headRowWF).filter isDataRow).mapM
          (fun r => cellVals r.firstChild) with
      | none => PResult.crash
      | some raws => PResult.ok raws :=
  c1_theorem pageWF (textLeaf "Downstream Bonded Channels")
    [HNode.node .elementNode "strong" [] (textLeaf "Downstream Bonded Channels") .nil,
     headCellD, headRowWF, pageWF] headRowWF (by decide) (by decide)

/-- Claim C3: for every page whose scraped downstream rows are all
well-formed under the §6 schema, `parseDownstream` returns exactly one
record per qualifying data row, in document order, and every numeric field
of each record equals the numeric value of the prefix of the corresponding
cell text before the first space (positions 3=FrequencyHz, 4=PowerdBmV,
5=SNRMERdB, 6=Corrected, 7=Uncorrectables). -/
theorem c3_theorem (t : HNode) (raws : List (List String))
    (h : downRaws t = .ok raws) (hwf : ∀ r ∈ raws, downRowWF r = true) :
    ∃ recs, parseDownstream t = .ok recs ∧ recs.length = raws.length
      ∧ List.Forall₂ downMatches raws recs := by
  obtain ⟨out, hout, hfa⟩ :=
    parseRows_ok_of (fun r hr => downRowParse_ok (hwf r hr))
  refine ⟨out, ?_, hfa.length_eq.symm, hfa⟩
  rw [show parseDownstream t = (downRaws t).bind (parseRows downRowParse) from rfl,
    h, PResult.ok_bind]
  exact hout

/-- Witness for C3 on the well-formed sample page: one record, whose
numeric fields are the numeric prefixes of cells 3–7. -/
theorem c3_witness :
    ∃ recs, parseDownstream pageWF = .ok recs ∧ recs.length = [goodRawD].length
      ∧ List.Forall₂ downMatches [goodRawD] recs :=
  c3_theorem pageWF [goodRawD] (by decide) (by decide)

/-- Claim C4 counterexample: a page in which a qualifying data row has a
non-convertible numeric cell (`badRawD`, frequency "x Hz"), yet the whole
parse does not fail with the conversion error: a short qualifying row
before it makes the code panic at `row[3]` first.  The claim as stated
(conversion error on every such page) is false. -/
theorem c4_counterexample :
    downRaws pageShortBad = .ok [["1"], badRawD]
      ∧ rowBadNumeric badRawD = true
      ∧ parseDownstream pageShortBad = .crash := by
  decide

/-- Claim C4 (amended): on every page whose qualifying data rows all have
the full schema width (8 downstream, 7 upstream columns), if some
qualifying data row has a numeric cell whose value cannot be converted to
the expected type, the whole table parse (`parseDownstream`
resp. `parseUpstream`) fails with the conversion error and returns no
partial record list.  (With a short qualifying row on the page the parse
can instead panic before reaching the bad cell: see the counterexample.) -/
theorem c4_theorem :
    (∀ (t : HNode) (raws : List (List String)), downRaws t = .ok raws →
        (∀ r ∈ raws, 8 ≤ r.length) → (∃ r ∈ raws, rowBadNumeric r = true) →
        parseDownstream t = .err .convErr)
      ∧ (∀ (t : HNode) (raws : List (List String)), upRaws t = .ok raws →
        (∀ r ∈ raws, 7 ≤ r.length) → (∃ r ∈ raws, upRowBadNumeric r = true) →
        parseUpstream t = .err .convErr) := by
  constructor
  · intro t raws h hlen hbad
    rw [show parseDownstream t = (downRaws t).bind (parseRows downRowParse) from rfl,
      h, PResult.ok_bind]
    apply parseRows_err_of
    · exact fun r hr => downRowParse_no_crash (hlen r hr)
    · exact fun r hr e he => downRowParse_err he
    · obtain ⟨r, hr, hb⟩ := hbad
      exact ⟨r, hr, downRowParse_bad (hlen r hr) hb⟩
  · intro t raws h hlen hbad
    rw [show parseUpstream t = (upRaws t).bind (parseRows upRowParse) from rfl,
      h, PResult.ok_bind]
    apply parseRows_err_of
    · exact fun r hr => upRowParse_no_crash (hlen r hr)
    · exact fun r hr e he => upRowParse_err he
    · obtain ⟨r, hr, hb⟩ := hbad
      exact ⟨r, hr, upRowParse_bad (hlen r hr) hb⟩

/-- Witness for the amended C4: a downstream page whose frequency cell
reads "x Hz" and an upstream page whose frequency cell reads "x Hz" both
make the whole parse fail with the conversion error. -/
theorem c4_witness :
    parseDownstream pageBad = .err .convErr
      ∧ parseUpstream pageBadU = .err .convErr :=
  ⟨c4_theorem.1 pageBad [badRawD] (by decide) (by decide)
      ⟨badRawD, by decide, by decide⟩,
    c4_theorem.2 pageBadU [badRawU] (by decide) (by decide)
      ⟨badRawU, by decide, by decide⟩⟩

/-- Claim C9 counterexample: on a page whose qualifying data row has a
single cell, the code reaches `row[3]` with no bounds check and the parse is
a runtime panic (index out of range), not an error return. -/
theorem c9_counterexample :
    downRaws pageShort = .ok [["1"]] ∧ parseDownstream pageShort = .crash := by
  decide

/-- Claim C9 (amended): the column accesses of `parseDownstream`
(positions 0–7) and of `parseUpstream` (positions 0–6) are total only when
every qualifying row has at least the schema's column count (8 downstream,
7 upstream); under that hypothesis the parse never panics.  (A shorter
qualifying row panics: see the counterexample.) -/
theorem c9_theorem :
    (∀ (t : HNode) (raws : List (List String)), downRaws t = .ok raws →
        (∀ r ∈ raws, 8 ≤ r.length) → parseDownstream t ≠ .crash)
      ∧ (∀ (t : HNode) (raws : List (List String)), upRaws t = .ok raws →
        (∀ r ∈ raws, 7 ≤ r.length) → parseUpstream t ≠ .crash) := by
  constructor
  · intro t raws h hlen
    rw [show parseDownstream t = (downRaws t).bind (parseRows downRowParse) from rfl,
      h, PResult.ok_bind]
    exact parseRows_no_crash (fun r hr => downRowParse_no_crash (hlen r hr))
  · intro t raws h hlen
    rw [show parseUpstream t = (upRaws t).bind (parseRows upRowParse) from rfl,
      h, PResult.ok_bind]
    exact parseRows_no_crash (fun r hr => upRowParse_no_crash (hlen r hr))

/-- Witness for the amended C9 on the two-table page: neither parse
panics. -/
theorem c9_witness :
    parseDownstream pageBoth ≠ .crash ∧ parseUpstream pageBoth ≠ .crash :=
  ⟨c9_theorem.1 pageBoth [goodRawD] (by decide) (by decide),
    c9_theorem.2 pageBoth [goodRawU] (by decide) (by decide)⟩

/-- Claim C10 counterexample: an empty `<td>` (no children) in a qualifying
row makes the cell extraction dereference a nil `FirstChild`, a runtime
panic; and a text node whose data happens to be "td" is treated as a cell
(only `Data` is inspected, not the node type). -/
theorem c10_counterexample :
    parseDownstream pageEmptyTd = .crash
      ∧ cellVals (HNode.node .textNode "td" [] (textLeaf "x") .nil) = some ["x"] := by
  decide

/-- Claim C10 (amended): the cell extraction of `scrapeTable` is total only
when, in every qualifying row, every child whose `Data` equals "td" has a
first child; under that hypothesis no nil dereference happens. -/
theorem c10_theorem (x : HNode)
    (h : ∀ r ∈ siblingList x, isDataRow r = true → cellsOK r.firstChild = true) :
    (scrapeTable x).isSome := by
  rw [scrapeTable_eq]
  apply mapM_isSome_of_forall
  intro r hr
  rw [List.mem_filter] at hr
  exact cellVals_isSome_of_cellsOK (h r hr.1 hr.2)

/-- Witness for the amended C10 on the well-formed heading row chain. -/
theorem c10_witness : (scrapeTable headRowWF).isSome :=
  c10_theorem headRowWF (by decide)

unseal Rat.mul Rat.inv in
/-- Claim C6: the Metrics Writer emits one line per (channel, field) pair
in the order all downstream fields for each downstream record in extraction
order (exactly five lines per downstream record, in the field order
frequency_hz, power_dbmv, snr_mer_db, corrected, uncorrectables), then all
upstream fields for each upstream record (three lines per record); the
channel_id label value is quoted, numeric values are unquoted, and the
metric names are exactly those of §6 — exhibited on the §8 sample record. -/
theorem c6_theorem :
    (∀ page ds us, (findTextNode page "Login" []).isSome = false →
        parseDownstream page = .ok ds → parseUpstream page = .ok us →
        writeMetricsModel page = .ok (writerLines ds us))
      ∧ (∀ (ds : List downstreamChannel) (us : List upstreamChannel),
          (writerLines ds us).length = 5 * ds.length + 3 * us.length)
      ∧ dsLines goodRecD =
          ["downstream_bonded_channels_frequency_hz\x7bchannel_id=\"1\"\x7d 543000000",
           "downstream_bonded_channels_power_dbmv\x7bchannel_id=\"1\"\x7d -2.3",
           "downstream_bonded_channels_snr_mer_db\x7bchannel_id=\"1\"\x7d 39.5",
           "downstream_bonded_channels_corrected\x7bchannel_id=\"1\"\x7d 12",
           "downstream_bonded_channels_uncorrectables\x7bchannel_id=\"1\"\x7d 0"] := by
  refine ⟨?_, ?_, by decide⟩
  · intro page ds us hnl hd hu
    unfold writeMetricsModel
    rw [hd, hu]
    simp [hnl]
  · intro ds us
    have h1 : ∀ ds' : List downstreamChannel,
        (ds'.flatMap dsLines).length = 5 * ds'.length := by
      intro ds'
      induction ds' with
      | nil => rfl
      | cons d rest ih =>
        rw [List.flatMap_cons, List.length_append, ih,
          show (dsLines d).length = 5 from rfl, List.length_cons]
        ring
    have h2 : ∀ us' : List upstreamChannel,
        (us'.flatMap usLines).length = 3 * us'.length := by
      intro us'
      induction us' with
      | nil => rfl
      | cons u rest ih =>
        rw [List.flatMap_cons, List.length_append, ih,
          show (usLines u).length = 3 from rfl, List.length_cons]
        ring
    rw [writerLines, List.length_append, h1, h2]

unseal Rat.mul Rat.inv in
/-- Witness for C6 on the two-table sample page. -/
theorem c6_witness :
    writeMetricsModel pageBoth = .ok (writerLines [goodRecD] [goodRecU]) :=
  c6_theorem.1 pageBoth [goodRecD] [goodRecU] (by decide) (by decide) (by decide)

/-- Claim C2: a fetch that starts with a non-empty cached token and whose
directly fetched page contains a "Login" text node performs exactly one
full re-authentication handshake and exactly one retry of the page fetch,
using the newly obtained token; if the retried page also contains a
"Login" text node, the overall `writeMetrics` operation fails (no further
retry or loop). -/
theorem c2_theorem (dev : Device) (tok : String) (hne : tok ≠ "")
    (hlogin : (findTextNode (dev.pageFor tok) "Login" []).isSome = true) :
    (fetchPageModel dev tok).handshakes = 1
      ∧ (fetchPageModel dev tok).innerFetches = 2
      ∧ (fetchPageModel dev tok).token = dev.newToken
      ∧ (fetchPageModel dev tok).page = dev.pageFor dev.newToken
      ∧ ((findTextNode (dev.pageFor dev.newToken) "Login" []).isSome = true →
          writeMetricsRun dev tok = .err [] .loginPage) := by
  obtain ⟨r, hr⟩ := Option.isSome_iff_exists.mp hlogin
  have hfetch : fetchPageModel dev tok =
      { token := dev.newToken, page := dev.pageFor dev.newToken,
        handshakes := 1, innerFetches := 2 } := by
    unfold fetchPageModel
    rw [if_pos hne]
    simp [hr]
  refine ⟨by rw [hfetch], by rw [hfetch], by rw [hfetch], by rw [hfetch], ?_⟩
  intro h2
  unfold writeMetricsRun
  rw [hfetch]
  show writeMetricsModel (dev.pageFor dev.newToken) = _
  unfold writeMetricsModel
  rw [if_pos h2]

/-- Witness for C2: a device that always serves the login page. -/
theorem c2_witness :
    (fetchPageModel devLogin "stale").handshakes = 1
      ∧ (fetchPageModel devLogin "stale").innerFetches = 2
      ∧ (fetchPageModel devLogin "stale").token = devLogin.newToken
      ∧ (fetchPageModel devLogin "stale").page = devLogin.pageFor devLogin.newToken
      ∧ ((findTextNode (devLogin.pageFor devLogin.newToken) "Login" []).isSome = true →
          writeMetricsRun devLogin "stale" = .err [] .loginPage) :=
  c2_theorem devLogin "stale" (by decide) (by decide)

/-- Claim C8: the parse-and-format pipeline is a pure function of the
fetched page content — two one-shot invocations against a device that
serves the same unchanged page produce identical output, whatever token
state each invocation starts from. -/
theorem c8_theorem (dev : Device) (pg : HNode) (hconst : ∀ s, dev.pageFor s = pg)
    (t1 t2 : String) :
    writeMetricsRun dev t1 = writeMetricsRun dev t2 := by
  have hp : ∀ tok, (fetchPageModel dev tok).page = pg := by
    intro tok
    unfold fetchPageModel
    by_cases h : tok ≠ ""
    · rw [if_pos h]
      by_cases h2 : (findTextNode (dev.pageFor tok) "Login" []).isNone = true
      · rw [if_pos h2]
        exact hconst tok
      · rw [if_neg h2]
        exact hconst _
    · rw [if_neg h]
      exact hconst _
  unfold writeMetricsRun
  rw [hp t1, hp t2]

/-- Witness for C8: two invocations with different starting token states
against the constant device. -/
theorem c8_witness : writeMetricsRun devConst "" = writeMetricsRun devConst "zzz" :=
  c8_theorem devConst pageBoth (fun _ => rfl) "" "zzz"
